import Mathlib

/-!
Verification development for the ipc-agent repository.

The embedding translates the Rust sources under `src/` into Lean:
`src/server/handlers/manager/mod.rs` (check_subnet, parse_from),
`src/server/handlers/manager/fund.rs` (FundHandler::handle),
`src/config/mod.rs` (Config::add_subnet, Config::remove_subnet) and the
`LotusClient` trait surface of `src/lotus/mod.rs`.  Types defined in parts
of the repository that are not available (`config/subnet.rs`,
`server/handlers/mod.rs`, the Lotus client implementation, the
`ipc_sdk::subnet_id` crate) are modelled from the specification and from
how the available sources use them; each such definition carries a doc
comment saying so.
-/

namespace IpcAgent

/-- Modelled from the spec: a hierarchical subnet identifier is an ordered
sequence of path segments (`ipc_sdk::subnet_id::SubnetID` is external to the
available sources).  `segments` lists the path segments from the root
downwards; a root identifier has exactly one segment. -/
structure SubnetID where
  segments : List String
deriving DecidableEq, Repr

/-- Modelled from the spec: `parent()` drops the last path segment and
returns none at the root (an identifier with at most one segment). -/
def SubnetID.parent (id : SubnetID) : Option SubnetID :=
  match id.segments with
  | [] => none
  | [_] => none
  | s :: rest => some ⟨(s :: rest).dropLast⟩

/-- Splits a character list on the `/` separator. -/
def splitSlash : List Char → List (List Char)
  | [] => [[]]
  | c :: rest =>
      if c = '/' then [] :: splitSlash rest
      else
        match splitSlash rest with
        | [] => [[c]]
        | seg :: segs => (c :: seg) :: segs

/-- Modelled from the spec: parsing a `/`-delimited path; fails with a
malformed-identifier error on an empty input, a missing leading slash or an
empty segment. -/
def SubnetID.from_str (s : String) : Except String SubnetID :=
  match s.data with
  | [] => Except.error "MalformedIdentifier"
  | c :: rest =>
      if c = '/' then
        let parts := splitSlash rest
        if parts.any (fun p => p.isEmpty) then Except.error "MalformedIdentifier"
        else Except.ok ⟨parts.map List.asString⟩
      else Except.error "MalformedIdentifier"

/-- Modelled from the use in the available sources: an `fvm_shared` address
value, kept abstract as its textual form (`Address::from_str` parsing is
external and is passed to the handlers as an oracle). -/
structure Address where
  addr : String
deriving DecidableEq, Repr

/-- Chain epoch (`fvm_shared::clock::ChainEpoch`, an i64 in Rust). -/
abbrev ChainEpoch : Type := Int

/-- Integer token amount in the chain's smallest unit
(`fvm_shared::econ::TokenAmount` holds a big integer). -/
abbrev TokenAmount : Type := Int

/-- Modelled from the use in the available sources and the spec: the
native-chain (FVM) subnet configuration variant of `config/subnet.rs`,
with the fields the available sources read: an optional auth token, the
configured account list and the gateway actor address. -/
structure FvmConfig where
  auth_token : Option String
  accounts : List Address
  gateway_addr : Address
deriving DecidableEq, Repr

/-- Modelled from the use in the available sources and the spec: the
EVM-compatible (FEVM) subnet configuration variant of `config/subnet.rs`. -/
structure FevmConfig where
  accounts : List Address
  gateway_addr : Address
deriving DecidableEq, Repr

/-- Modelled from `config/subnet.rs` (not among the available sources):
the subnet configuration variant. -/
inductive SubnetConfig where
  | Fvm : FvmConfig → SubnetConfig
  | Fevm : FevmConfig → SubnetConfig
deriving DecidableEq, Repr

/-- Modelled from `config/subnet.rs` (not among the available sources):
a subnet configuration record with the fields the available sources use. -/
structure Subnet where
  id : SubnetID
  config : SubnetConfig
deriving DecidableEq, Repr

/-- Accessor `Subnet::accounts()` as used by `parse_from`. -/
def Subnet.accounts (s : Subnet) : List Address :=
  match s.config with
  | SubnetConfig.Fvm c => c.accounts
  | SubnetConfig.Fevm c => c.accounts

/-- Accessor `Subnet::gateway_addr()` as used by `FundHandler::handle`. -/
def Subnet.gateway_addr (s : Subnet) : Address :=
  match s.config with
  | SubnetConfig.Fvm c => c.gateway_addr
  | SubnetConfig.Fevm c => c.gateway_addr

/-- Log line emitted by `check_subnet` when the auth token is absent,
carrying the subnet identifier as the Rust log macro call does. -/
def authTokenLog (id : SubnetID) : String :=
  "subnet " ++ reprStr id ++ " does not have auth token"

/-- Log line emitted by `parse_from` when no account is configured,
carrying the subnet identifier as the Rust log macro call does. -/
def noAccountLog (id : SubnetID) : String :=
  "subnet does not have account defined, " ++ reprStr id

/-- Translation of `check_subnet` in `src/server/handlers/manager/mod.rs`:
the first component is the caller-visible result, the second the list of
internally logged lines. -/
def check_subnet (subnet : Subnet) : Except String Unit × List String :=
  match subnet.config with
  | SubnetConfig.Fvm config =>
      if config.auth_token.isNone then
        (Except.error "Internal server error", [authTokenLog subnet.id])
      else (Except.ok (), [])
  | SubnetConfig.Fevm _ => (Except.ok (), [])

/-- Translation of `parse_from` in `src/server/handlers/manager/mod.rs`:
`parseAddr` is the external `Address::from_str` parser; the first component
is the caller-visible result, the second the list of internally logged
lines. -/
def parse_from (parseAddr : String → Except String Address)
    (subnet : Subnet) (fr : Option String) : Except String Address × List String :=
  match fr with
  | some a => (parseAddr a, [])
  | none =>
      match subnet.accounts with
      | [] => (Except.error "Internal server error", [noAccountLog subnet.id])
      | a :: _ => (Except.ok a, [])

/-- Modelled from the spec: `f64_to_token_amount` in `server/handlers/mod.rs`
(not among the available sources) converts the request's decimal amount of
whole FIL to the chain's integer smallest unit, 10^18 units per FIL, and
fails with an invalid-amount error whenever the amount is not exactly
representable in that unit.  The decimal amount is modelled as a rational
number; since a rational is exactly representable in the smallest unit iff
its reduced denominator divides 10^18, the conversion is computed on the
numerator and denominator directly. -/
def f64_to_token_amount (f : ℚ) : Except String TokenAmount :=
  if (10 ^ 18 : Nat) % f.den = 0 then
    Except.ok (f.num * (((10 ^ 18 : Nat) / f.den : Nat) : Int))
  else Except.error "invalid amount"

/-- Request parameters of the fund JSON-RPC method (`FundParams` in
`src/server/handlers/manager/fund.rs`); the Rust `from` and `to` fields are
`Option<String>`, the amount (an `f64` of whole FIL) is modelled as a
rational number. -/
structure FundParams where
  subnet : String
  from? : Option String
  to? : Option String
  amount : ℚ

/-- Modelled from `server/handlers/manager/subnet.rs` (not among the
available sources): a pool entry, whose `subnet()` accessor returns the
subnet configuration of the connection.  The manager half of the
connection is passed to the handler as an oracle. -/
structure Conn where
  subnet : Subnet
deriving DecidableEq, Repr

/-- Observable external effects of a run of the fund handler: a pool
lookup, an invocation of `SubnetManager::fund` (a NodeClient-backed call,
carrying the requested subnet, the gateway address and the resolved
from/to/amount), and an internal log line. -/
inductive Event where
  | poolGet : SubnetID → Event
  | managerFund : SubnetID → Address → Address → Address → TokenAmount → Event
  | log : String → Event
deriving DecidableEq, Repr

/-- Translation of `FundHandler::handle` in
`src/server/handlers/manager/fund.rs`.  External collaborators are passed
as oracles: `parseAddr` is `Address::from_str`, `pool` is
`SubnetManagerPool::get`, `managerFund` is `SubnetManager::fund` on the
resolved connection.  Returns the caller-visible result paired with the
trace of external effects, in order. -/
def fund_handle (parseAddr : String → Except String Address)
    (pool : SubnetID → Option Conn)
    (managerFund : SubnetID → Address → Address → Address → TokenAmount →
      Except String ChainEpoch)
    (request : FundParams) : Except String ChainEpoch × List Event :=
  match SubnetID.from_str request.subnet with
  | Except.error e => (Except.error e, [])
  | Except.ok subnet =>
  match subnet.parent with
  | none => (Except.error "no parent found", [])
  | some parent =>
  match pool parent with
  | none => (Except.error "target parent subnet not found", [Event.poolGet parent])
  | some conn =>
  let subnet_config := conn.subnet
  match check_subnet subnet_config with
  | (Except.error e, logs) => (Except.error e, Event.poolGet parent :: logs.map Event.log)
  | (Except.ok _, logs0) =>
  match parse_from parseAddr subnet_config request.from? with
  | (Except.error e, logs) =>
      (Except.error e, Event.poolGet parent :: (logs0 ++ logs).map Event.log)
  | (Except.ok fr, logs1) =>
  match (match request.to? with
         | some t => (parseAddr t).map some
         | none => Except.ok none) with
  | Except.error e =>
      (Except.error e, Event.poolGet parent :: (logs0 ++ logs1).map Event.log)
  | Except.ok toOpt =>
  let toAddr := toOpt.getD fr
  match f64_to_token_amount request.amount with
  | Except.error e =>
      (Except.error e, Event.poolGet parent :: (logs0 ++ logs1).map Event.log)
  | Except.ok amount =>
  (managerFund subnet subnet_config.gateway_addr fr toAddr amount,
   Event.poolGet parent :: (logs0 ++ logs1).map Event.log
     ++ [Event.managerFund subnet subnet_config.gateway_addr fr toAddr amount])

/-- Extensional model of `HashMap<SubnetID, Subnet>` lookup
(`HashMap::get`): the value of the most recent insertion for the key, if
any. -/
def hm_get (m : List (SubnetID × Subnet)) (k : SubnetID) : Option Subnet :=
  match m with
  | [] => none
  | (k', v) :: rest => if k' = k then some v else hm_get rest k

/-- Extensional model of `HashMap::insert`: the new binding shadows any
older binding for the same key. -/
def hm_insert (m : List (SubnetID × Subnet)) (k : SubnetID) (v : Subnet) :
    List (SubnetID × Subnet) :=
  (k, v) :: m

/-- Extensional model of `HashMap::remove`: drops every binding for the
key. -/
def hm_remove (m : List (SubnetID × Subnet)) (k : SubnetID) :
    List (SubnetID × Subnet) :=
  m.filter (fun p => decide (p.1 ≠ k))

/-- Translation of the `Config` struct of `src/config/mod.rs`, restricted
to its `subnets` map (the server field is not used by any claim). -/
structure Config where
  subnets : List (SubnetID × Subnet)

/-- Translation of `Config::add_subnet` in `src/config/mod.rs`:
`self.subnets.insert(subnet.id.clone(), subnet)`. -/
def Config.add_subnet (c : Config) (subnet : Subnet) : Config :=
  { c with subnets := hm_insert c.subnets subnet.id subnet }

/-- Translation of `Config::remove_subnet` in `src/config/mod.rs`:
`self.subnets.remove(subnet_id)`. -/
def Config.remove_subnet (c : Config) (subnet_id : SubnetID) : Config :=
  { c with subnets := hm_remove c.subnets subnet_id }

/-- Modelled from the spec: `deserialize_subnets_from_vec` in
`config/deserialize.rs` (not among the available sources) builds the
subnets map of a freshly loaded configuration by inserting each listed
subnet keyed by its identifier. -/
def subnets_from_vec (l : List Subnet) : List (SubnetID × Subnet) :=
  l.foldl (fun m s => hm_insert m s.id s) []

/-- Modelled from the spec: a cross-subnet message carrying a strictly
increasing per-subnet nonce (`ipc_sdk::cross::CrossMsg` is external to the
available sources); the payload stands for the value-or-call content. -/
structure CrossMsg where
  nonce : Nat
  payload : String
deriving DecidableEq, Repr

/-- Checks that a list of nonces is exactly `n, n+1, n+2, ...`. -/
def nonces_from (n : Nat) : List Nat → Bool
  | [] => true
  | m :: rest => m == n && nonces_from (n + 1) rest

/-- Modelled from the spec: `get_topdown_messages(from_nonce)`
(`ipc_get_topdown_msgs` is declared in `src/lotus/mod.rs` but its
implementation is not among the available sources).  `fetched` is the
message list the node reports for nonces starting at `n`; the operation
returns it when the nonces are contiguous starting at `n` and fails with
`NonceGap` when the node reports a discontinuity. -/
def get_topdown_messages (fetched : List CrossMsg) (n : Nat) :
    Except String (List CrossMsg) :=
  if nonces_from n (fetched.map CrossMsg.nonce) then Except.ok fetched
  else Except.error "NonceGap"

/-! Concrete fixtures used by the witness theorems. -/

/-- Fixture: a concrete account address. -/
def wAddr : Address := ⟨"t1aa"⟩

/-- Fixture: a concrete gateway address. -/
def wGateway : Address := ⟨"t064"⟩

/-- Fixture: the root identifier parsed from "/r314159". -/
def wParent : SubnetID := ⟨["r314159"]⟩

/-- Fixture: a depth-two identifier parsed from "/r314159/t2". -/
def wChild : SubnetID := ⟨["r314159", "t2"]⟩

/-- Fixture: an Fevm subnet with one configured account. -/
def wSubnetFevm : Subnet := ⟨wParent, SubnetConfig.Fevm ⟨[wAddr], wGateway⟩⟩

/-- Fixture: an Fevm subnet with an empty account list. -/
def wSubnetNoAcct : Subnet := ⟨wParent, SubnetConfig.Fevm ⟨[], wGateway⟩⟩

/-- Fixture: an Fvm subnet with one account but no auth token. -/
def wSubnetFvmNoTok : Subnet := ⟨wParent, SubnetConfig.Fvm ⟨none, [wAddr], wGateway⟩⟩

/-- Fixture: a pool holding only the root subnet entry. -/
def wPool : SubnetID → Option Conn :=
  fun i => if i = wParent then some ⟨wSubnetFevm⟩ else none

/-- Fixture: a pool whose root entry has no configured account. -/
def wPoolNoAcct : SubnetID → Option Conn :=
  fun i => if i = wParent then some ⟨wSubnetNoAcct⟩ else none

/-- Fixture: an empty pool. -/
def wPoolEmpty : SubnetID → Option Conn := fun _ => none

/-- Fixture: an address parser accepting every nonempty string. -/
def wParse : String → Except String Address :=
  fun s => if s = "" then Except.error "bad address" else Except.ok ⟨s⟩

/-- Fixture: a manager oracle accepting every transaction at epoch 42. -/
def wManager : SubnetID → Address → Address → Address → TokenAmount →
    Except String ChainEpoch :=
  fun _ _ _ _ _ => Except.ok (42 : Int)

/-! Claim theorems. -/

/-- C9: `check_subnet` performs no validation for EVM-compatible (Fevm)
subnets — it returns Ok with no log line for every Fevm configuration —
and every rejection it produces is for a native-chain (Fvm) subnet whose
auth token is absent. -/
theorem c9_check_subnet_fevm_always_ok :
    (∀ (id : SubnetID) (cfg : FevmConfig),
      check_subnet ⟨id, SubnetConfig.Fevm cfg⟩ = (Except.ok (), [])) ∧
    (∀ (s : Subnet) (e : String) (logs : List String),
      check_subnet s = (Except.error e, logs) →
      ∃ c, s.config = SubnetConfig.Fvm c ∧ c.auth_token = none) := by
  constructor
  · intro id cfg
    rfl
  · intro s e logs h
    rcases s with ⟨id, cfg⟩
    cases cfg with
    | Fvm c =>
        refine ⟨c, rfl, ?_⟩
        by_cases ht : c.auth_token.isNone
        · exact Option.isNone_iff_eq_none.mp ht
        · simp [check_subnet, ht] at h
    | Fevm c => simp [check_subnet] at h

/-- Witness for C9 at a concrete Fvm subnet missing its auth token. -/
theorem c9_witness :
    ∃ c, wSubnetFvmNoTok.config = SubnetConfig.Fvm c ∧ c.auth_token = none :=
  c9_check_subnet_fevm_always_ok.2 wSubnetFvmNoTok "Internal server error"
    [authTokenLog wParent] rfl

/-- C10: with an explicit `from` string, `parse_from` is exactly the
external address parser's result and never consults the subnet's account
list: the outcome is identical for any two subnets, succeeds whenever the
address parses even with zero configured accounts, and fails whenever the
address does not parse, regardless of configured accounts. -/
theorem c10_parse_from_explicit_ignores_accounts
    (parseAddr : String → Except String Address) (s : Subnet) (a : String) :
    parse_from parseAddr s (some a) = (parseAddr a, []) ∧
    (∀ s' : Subnet,
      parse_from parseAddr s (some a) = parse_from parseAddr s' (some a)) :=
  ⟨rfl, fun _ => rfl⟩

/-- C2: a fund request whose subnet identifier is the root (parent() is
none) fails with the no-parent error and an empty external-effect trace —
no pool lookup and no manager invocation — whatever the pool, address
parser and manager oracles are. -/
theorem c2_fund_root_fails_no_parent
    (parseAddr : String → Except String Address)
    (pool : SubnetID → Option Conn)
    (managerFund : SubnetID → Address → Address → Address → TokenAmount →
      Except String ChainEpoch)
    (request : FundParams) (sid : SubnetID)
    (hparse : SubnetID.from_str request.subnet = Except.ok sid)
    (hroot : sid.parent = none) :
    fund_handle parseAddr pool managerFund request =
      (Except.error "no parent found", []) := by
  simp only [fund_handle, hparse, hroot]

/-- Witness for C2: funding the root subnet "/r314159" with concrete
oracles fails with the no-parent error and an empty trace. -/
theorem c2_witness :
    SubnetID.from_str "/r314159" = Except.ok wParent ∧
    wParent.parent = none ∧
    fund_handle wParse wPool wManager ⟨"/r314159", none, none, mkRat 3 2⟩ =
      (Except.error "no parent found", []) :=
  ⟨rfl, rfl, c2_fund_root_fails_no_parent wParse wPool wManager _ wParent rfl rfl⟩

/-- C4: the pool is consulted with the parent identifier of the requested
subnet — every pool-lookup event in any run targets the parent, never the
requested subnet itself — and when the pool has no entry for the parent,
the request fails with the target-parent-subnet-not-found error. -/
theorem c4_pool_lookup_uses_parent
    (parseAddr : String → Except String Address)
    (pool : SubnetID → Option Conn)
    (managerFund : SubnetID → Address → Address → Address → TokenAmount →
      Except String ChainEpoch)
    (request : FundParams) (sid p : SubnetID)
    (hparse : SubnetID.from_str request.subnet = Except.ok sid)
    (hp : sid.parent = some p) :
    (pool p = none →
      fund_handle parseAddr pool managerFund request =
        (Except.error "target parent subnet not found", [Event.poolGet p])) ∧
    (∀ q, Event.poolGet q ∈ (fund_handle parseAddr pool managerFund request).2 →
      q = p) := by
  constructor
  · intro hnone
    simp only [fund_handle, hparse, hp, hnone]
  · intro q hq
    simp only [fund_handle, hparse, hp] at hq
    repeat' split at hq
    all_goals simp_all

/-- Witness for C4: funding "/r314159/t2" against an empty pool fails with
the target-parent-subnet-not-found error after looking up the parent
"/r314159". -/
theorem c4_witness :
    SubnetID.from_str "/r314159/t2" = Except.ok wChild ∧
    wChild.parent = some wParent ∧
    wPoolEmpty wParent = none ∧
    fund_handle wParse wPoolEmpty wManager ⟨"/r314159/t2", none, none, mkRat 3 2⟩ =
      (Except.error "target parent subnet not found", [Event.poolGet wParent]) :=
  ⟨rfl, rfl, rfl,
    (c4_pool_lookup_uses_parent wParse wPoolEmpty wManager
      ⟨"/r314159/t2", none, none, mkRat 3 2⟩ wChild wParent rfl rfl).1 rfl⟩

/-- C3: for every fund request that reaches the manager (parse, parent,
pool, readiness, address resolution and amount conversion succeed): on
success the caller receives exactly the chain epoch the manager reports
the transaction accepted at — whatever `from` and `to` are; when `from`
is absent the resolved sender is the first configured account of the
subnet entry resolved from the pool (the parent entry); and when `to` is
absent the recipient is the resolved `from` address itself, also when
`from` was given explicitly. -/
theorem c3_fund_defaults_and_epoch
    (parseAddr : String → Except String Address)
    (pool : SubnetID → Option Conn)
    (managerFund : SubnetID → Address → Address → Address → TokenAmount →
      Except String ChainEpoch)
    (request : FundParams) (sid p : SubnetID) (conn : Conn)
    (fr : Address) (toOpt : Option Address) (amt : TokenAmount) (ep : ChainEpoch)
    (hparse : SubnetID.from_str request.subnet = Except.ok sid)
    (hp : sid.parent = some p)
    (hpool : pool p = some conn)
    (hchk : check_subnet conn.subnet = (Except.ok (), []))
    (hfr : parse_from parseAddr conn.subnet request.from? = (Except.ok fr, []))
    (hto : (match request.to? with
            | some t => (parseAddr t).map some
            | none => Except.ok none) = Except.ok toOpt)
    (hamt : f64_to_token_amount request.amount = Except.ok amt)
    (hmf : managerFund sid conn.subnet.gateway_addr fr (toOpt.getD fr) amt =
      Except.ok ep) :
    fund_handle parseAddr pool managerFund request =
      (Except.ok ep,
       [Event.poolGet p,
        Event.managerFund sid conn.subnet.gateway_addr fr (toOpt.getD fr) amt]) ∧
    (request.from? = none → ∀ a rest, conn.subnet.accounts = a :: rest →
      fr = a) ∧
    (request.to? = none → toOpt.getD fr = fr) := by
  refine ⟨?_, ?_, ?_⟩
  · simp only [fund_handle, hparse, hp, hpool, hchk, hfr, hto, hamt, hmf,
      List.map_nil, List.nil_append, List.cons_append, List.singleton_append]
  · intro hnone a rest hacc
    rw [hnone] at hfr
    simp only [parse_from, hacc, Prod.mk.injEq] at hfr
    exact (Except.ok.inj hfr.1).symm
  · intro hnone
    rw [hnone] at hto
    cases Except.ok.inj hto
    rfl

/-- Witness for C3, covering both defaulting cases concretely: with
from = to = none on a pool whose parent entry's first account is `wAddr`,
the manager is invoked with from = to = wAddr; with an explicit
from = "t1bb" and to = none, the manager is invoked with from = to =
the parsed explicit address, not the configured account; both runs return
the manager's epoch 42 and transfer 1.5e18 smallest units. -/
theorem c3_witness :
    (fund_handle wParse wPool wManager ⟨"/r314159/t2", none, none, mkRat 3 2⟩ =
      (Except.ok (42 : Int),
       [Event.poolGet wParent,
        Event.managerFund wChild wGateway wAddr wAddr
          (1500000000000000000 : Int)])) ∧
    (fund_handle wParse wPool wManager
        ⟨"/r314159/t2", some "t1bb", none, mkRat 3 2⟩ =
      (Except.ok (42 : Int),
       [Event.poolGet wParent,
        Event.managerFund wChild wGateway ⟨"t1bb"⟩ ⟨"t1bb"⟩
          (1500000000000000000 : Int)])) :=
  ⟨(c3_fund_defaults_and_epoch wParse wPool wManager
      ⟨"/r314159/t2", none, none, mkRat 3 2⟩ wChild wParent ⟨wSubnetFevm⟩
      wAddr none (1500000000000000000 : Int) (42 : Int)
      rfl rfl rfl rfl rfl rfl rfl rfl).1,
   (c3_fund_defaults_and_epoch wParse wPool wManager
      ⟨"/r314159/t2", some "t1bb", none, mkRat 3 2⟩ wChild wParent ⟨wSubnetFevm⟩
      ⟨"t1bb"⟩ none (1500000000000000000 : Int) (42 : Int)
      rfl rfl rfl rfl rfl rfl rfl rfl).1⟩

/-- C5: when `from` is absent and the resolved subnet entry has an empty
configured account list, the fund request fails with the generic internal
error, the missing-account detail is only logged, and no manager
invocation (no transaction submission) appears in the trace. -/
theorem c5_fund_no_account_configured
    (parseAddr : String → Except String Address)
    (pool : SubnetID → Option Conn)
    (managerFund : SubnetID → Address → Address → Address → TokenAmount →
      Except String ChainEpoch)
    (request : FundParams) (sid p : SubnetID) (conn : Conn)
    (hparse : SubnetID.from_str request.subnet = Except.ok sid)
    (hp : sid.parent = some p)
    (hpool : pool p = some conn)
    (hchk : check_subnet conn.subnet = (Except.ok (), []))
    (hfrom : request.from? = none)
    (hacc : conn.subnet.accounts = []) :
    fund_handle parseAddr pool managerFund request =
      (Except.error "Internal server error",
       [Event.poolGet p, Event.log (noAccountLog conn.subnet.id)]) ∧
    (∀ s g f t amt, Event.managerFund s g f t amt ∉
      (fund_handle parseAddr pool managerFund request).2) := by
  have hrun : fund_handle parseAddr pool managerFund request =
      (Except.error "Internal server error",
       [Event.poolGet p, Event.log (noAccountLog conn.subnet.id)]) := by
    simp only [fund_handle, hparse, hp, hpool, hchk, parse_from, hfrom, hacc,
      List.map_nil, List.nil_append, List.map_cons]
  refine ⟨hrun, ?_⟩
  intro s g f t amt
  rw [hrun]
  simp

/-- Witness for C5: fund("/r314159/t2", from = none) against a pool whose
parent entry has no configured account fails with the generic internal
error and submits nothing. -/
theorem c5_witness :
    fund_handle wParse wPoolNoAcct wManager
        ⟨"/r314159/t2", none, none, mkRat 3 2⟩ =
      (Except.error "Internal server error",
       [Event.poolGet wParent, Event.log (noAccountLog wParent)]) :=
  (c5_fund_no_account_configured wParse wPoolNoAcct wManager
    ⟨"/r314159/t2", none, none, mkRat 3 2⟩ wChild wParent ⟨wSubnetNoAcct⟩
    rfl rfl rfl rfl rfl rfl).1

/-- C6: the caller-visible error for a native-chain subnet missing its
auth token and the caller-visible error for a subnet with no configured
account are the same generic internal-error message — two runs differing
only in which configuration detail is missing produce identical
caller-visible errors — while the specific detail appears only in the
internal log lines. -/
theorem c6_generic_internal_error
    (parseAddr : String → Except String Address)
    (s1 s2 : Subnet) (cfg : FvmConfig)
    (h1 : s1.config = SubnetConfig.Fvm cfg)
    (htok : cfg.auth_token = none)
    (h2 : s2.accounts = []) :
    (check_subnet s1).1 = Except.error "Internal server error" ∧
    (parse_from parseAddr s2 none).1 = Except.error "Internal server error" ∧
    (check_subnet s1).2 = [authTokenLog s1.id] ∧
    (parse_from parseAddr s2 none).2 = [noAccountLog s2.id] := by
  have hc : check_subnet s1 =
      (Except.error "Internal server error", [authTokenLog s1.id]) := by
    rcases s1 with ⟨id, c⟩
    simp only [Subnet.config] at h1
    subst h1
    simp [check_subnet, htok]
  have hpn : parse_from parseAddr s2 none =
      (Except.error "Internal server error", [noAccountLog s2.id]) := by
    simp [parse_from, h2]
  rw [hc, hpn]
  exact ⟨rfl, rfl, rfl, rfl⟩

/-- Witness for C6: a concrete Fvm subnet without auth token and a
concrete subnet without accounts yield the identical generic error. -/
theorem c6_witness :
    (check_subnet wSubnetFvmNoTok).1 = Except.error "Internal server error" ∧
    (parse_from wParse wSubnetNoAcct none).1 =
      Except.error "Internal server error" ∧
    (check_subnet wSubnetFvmNoTok).2 = [authTokenLog wParent] ∧
    (parse_from wParse wSubnetNoAcct none).2 = [noAccountLog wParent] :=
  c6_generic_internal_error wParse wSubnetFvmNoTok wSubnetNoAcct
    ⟨none, [wAddr], wGateway⟩ rfl rfl rfl

/-- Helper: lookup of a key in the map after removing that key is none. -/
theorem hm_get_remove (m : List (SubnetID × Subnet)) (k : SubnetID) :
    hm_get (hm_remove m k) k = none := by
  induction m with
  | nil => rfl
  | cons hd tl ih =>
      rcases hd with ⟨k', v⟩
      by_cases h : k' = k
      · simpa [hm_remove, List.filter_cons, h] using ih
      · simpa [hm_remove, List.filter_cons, h, hm_get] using ih

/-- Helper: folding insertions over a subnet list whose identifiers avoid
`k` preserves a none lookup at `k`. -/
theorem hm_get_foldl_insert (l : List Subnet) :
    ∀ (acc : List (SubnetID × Subnet)) (k : SubnetID),
      k ∉ l.map Subnet.id → hm_get acc k = none →
      hm_get (l.foldl (fun m s => hm_insert m s.id s) acc) k = none := by
  induction l with
  | nil => intro acc k _ hacc; simpa using hacc
  | cons s tl ih =>
      intro acc k hk hacc
      simp only [List.map_cons, List.mem_cons] at hk
      push_neg at hk
      simp only [List.foldl_cons]
      refine ih _ k hk.2 ?_
      simp [hm_insert, hm_get, Ne.symm hk.1, hacc]

/-- C8: looking up `s.id` in the subnets map after `add_subnet s` returns
`s`; looking up an identifier after `remove_subnet` of that identifier
returns none; and looking up an identifier in a freshly built subnets map
whose subnet list omits it returns none. -/
theorem c8_config_subnets_map (c : Config) (s : Subnet) (k : SubnetID)
    (l : List Subnet) :
    hm_get (c.add_subnet s).subnets s.id = some s ∧
    hm_get (c.remove_subnet k).subnets k = none ∧
    (k ∉ l.map Subnet.id → hm_get (subnets_from_vec l) k = none) := by
  refine ⟨?_, ?_, ?_⟩
  · simp [Config.add_subnet, hm_insert, hm_get]
  · exact hm_get_remove c.subnets k
  · intro hk
    exact hm_get_foldl_insert l [] k hk rfl

/-- Witness for C8 on a concrete config, subnet and omitted identifier. -/
theorem c8_witness :
    wChild ∉ [wSubnetFevm].map Subnet.id ∧
    hm_get (subnets_from_vec [wSubnetFevm]) wChild = none := by
  refine ⟨by decide, ?_⟩
  exact (c8_config_subnets_map ⟨[]⟩ wSubnetFevm wChild [wSubnetFevm]).2.2 (by decide)

/-- Helper: `nonces_from n ns` holds exactly when `ns` is the contiguous
sequence `n, n+1, ...` of its own length. -/
theorem nonces_from_iff (ns : List Nat) : ∀ n : Nat,
    nonces_from n ns = true ↔ ns = List.range' n ns.length := by
  induction ns with
  | nil => intro n; simp [nonces_from]
  | cons m rest ih =>
      intro n
      simp [nonces_from, List.range'_succ, ih (n + 1)]

/-- C1: `get_topdown_messages` returns the node's message list exactly
when its nonces are the contiguous strictly increasing sequence starting
at `n`; any returned list has contiguous nonces starting at `n` and
strictly increasing; and whenever the node reports a discontinuity the
operation fails with the NonceGap error instead of returning the gapped
list. -/
theorem c1_topdown_messages_contiguous (fetched : List CrossMsg) (n : Nat) :
    (get_topdown_messages fetched n = Except.ok fetched ↔
      fetched.map CrossMsg.nonce = List.range' n fetched.length) ∧
    (∀ l, get_topdown_messages fetched n = Except.ok l →
      l = fetched ∧ l.map CrossMsg.nonce = List.range' n l.length ∧
      List.Pairwise (fun a b => a < b) (l.map CrossMsg.nonce)) ∧
    (fetched.map CrossMsg.nonce ≠ List.range' n fetched.length →
      get_topdown_messages fetched n = Except.error "NonceGap") := by
  have hiff : nonces_from n (fetched.map CrossMsg.nonce) = true ↔
      fetched.map CrossMsg.nonce = List.range' n fetched.length := by
    simpa using nonces_from_iff (fetched.map CrossMsg.nonce) n
  refine ⟨?_, ?_, ?_⟩
  · unfold get_topdown_messages
    by_cases h : nonces_from n (fetched.map CrossMsg.nonce)
    · simpa [h] using hiff.mp h
    · simp only [h, Bool.false_eq_true, if_false]
      constructor
      · intro hcontra; cases hcontra
      · intro hr
        exact absurd (hiff.mpr hr) (by simpa using h)
  · intro l hl
    unfold get_topdown_messages at hl
    by_cases h : nonces_from n (fetched.map CrossMsg.nonce)
    · simp only [h, if_true] at hl
      cases hl
      refine ⟨rfl, ?_, ?_⟩
      · simpa using hiff.mp h
      · rw [(by simpa using hiff.mp h :
          fetched.map CrossMsg.nonce = List.range' n fetched.length)]
        exact List.pairwise_lt_range' n fetched.length
    · simp [h] at hl
  · intro hne
    unfold get_topdown_messages
    have : nonces_from n (fetched.map CrossMsg.nonce) ≠ true := fun h =>
      hne (hiff.mp h)
    simp [this]

/-- Witness for C1: a node response with a nonce gap (5 then 7) yields the
NonceGap error. -/
theorem c1_witness :
    ([⟨5, "a"⟩, ⟨7, "b"⟩] : List CrossMsg).map CrossMsg.nonce ≠
      List.range' 5 2 ∧
    get_topdown_messages [⟨5, "a"⟩, ⟨7, "b"⟩] 5 = Except.error "NonceGap" :=
  ⟨by decide,
   (c1_topdown_messages_contiguous [⟨5, "a"⟩, ⟨7, "b"⟩] 5).2.2 (by decide)⟩

/-- Helper: when `f.den * k = 10^18`, the integer `f.num * k` equals
`f * 10^18` in ℚ, i.e. the converted token value is exact. -/
theorem token_value_eq (f : ℚ) (k : ℕ) (hdk : f.den * k = 10 ^ 18) :
    ((f.num * (k : ℤ) : ℤ) : ℚ) = f * 10 ^ 18 := by
  have hden : (f.den : ℚ) ≠ 0 := by exact_mod_cast f.den_nz
  have hcast : (f.den : ℚ) * (k : ℚ) = 10 ^ 18 := by exact_mod_cast hdk
  push_cast
  conv_rhs => rw [← Rat.num_div_den f]
  rw [div_mul_eq_mul_div, eq_comm, div_eq_iff hden]
  linear_combination -(f.num : ℚ) * hcast

/-- Helper: a rational amount of whole FIL is exactly representable in the
chain's smallest unit (an integer number of 10^-18 FIL) iff its reduced
denominator divides 10^18. -/
theorem exact_in_atto_iff (f : ℚ) :
    (∃ n : ℤ, (n : ℚ) = f * 10 ^ 18) ↔ (10 ^ 18 : ℕ) % f.den = 0 := by
  constructor
  · rintro ⟨n, hn⟩
    have h18 : ((10 : ℚ) ^ 18) ≠ 0 := by norm_num
    have hf : f = (n : ℚ) / ((10 : ℚ) ^ 18) := (eq_div_iff h18).mpr hn.symm
    have hdiv : Rat.divInt n (10 ^ 18) = f := by
      rw [Rat.divInt_eq_div, hf]
      push_cast
      ring
    have hdvd : ((f.den : ℤ)) ∣ ((10 : ℤ) ^ 18) := by
      rw [← hdiv]
      exact Rat.den_dvd n (10 ^ 18)
    have hdvdn : f.den ∣ 10 ^ 18 := by exact_mod_cast hdvd
    rcases hdvdn with ⟨c, hc⟩
    rw [hc]
    exact Nat.mul_mod_right _ _
  · intro h
    have hdvd : f.den ∣ 10 ^ 18 := Nat.dvd_of_mod_eq_zero h
    have hdk : f.den * ((10 ^ 18) / f.den) = 10 ^ 18 := Nat.mul_div_cancel' hdvd
    exact ⟨f.num * ((10 ^ 18 / f.den : ℕ) : ℤ), token_value_eq f _ hdk⟩

/-- C7: the decimal FIL amount is converted to the chain's integer
smallest unit — a successful conversion returns exactly `amount * 10^18`
— the conversion fails with the invalid-amount error whenever the amount
is not exactly representable in that unit, and a failed conversion makes
the fund handler fail without any manager invocation (no transaction is
submitted). -/
theorem c7_amount_conversion_exact (f : ℚ) :
    (∀ n : TokenAmount, f64_to_token_amount f = Except.ok n →
      (n : ℚ) = f * 10 ^ 18) ∧
    ((¬ ∃ n : ℤ, (n : ℚ) = f * 10 ^ 18) →
      f64_to_token_amount f = Except.error "invalid amount") ∧
    ((10 ^ 18 : ℕ) % f.den ≠ 0 →
      f64_to_token_amount f = Except.error "invalid amount") ∧
    (∀ (parseAddr : String → Except String Address)
       (pool : SubnetID → Option Conn)
       (managerFund : SubnetID → Address → Address → Address → TokenAmount →
         Except String ChainEpoch)
       (request : FundParams),
      f64_to_token_amount request.amount = Except.error "invalid amount" →
      (∀ s g fr t amt, Event.managerFund s g fr t amt ∉
        (fund_handle parseAddr pool managerFund request).2) ∧
      (∀ ep : ChainEpoch,
        (fund_handle parseAddr pool managerFund request).1 ≠ Except.ok ep)) := by
  refine ⟨?_, ?_, ?_, ?_⟩
  · intro n hn
    unfold f64_to_token_amount at hn
    by_cases h : (10 ^ 18 : ℕ) % f.den = 0
    · rw [if_pos h] at hn
      cases hn
      exact token_value_eq f _ (Nat.mul_div_cancel' (Nat.dvd_of_mod_eq_zero h))
    · rw [if_neg h] at hn
      cases hn
  · intro hne
    have h : (10 ^ 18 : ℕ) % f.den ≠ 0 := fun h =>
      hne ((exact_in_atto_iff f).mpr h)
    unfold f64_to_token_amount
    rw [if_neg h]
  · intro h
    unfold f64_to_token_amount
    rw [if_neg h]
  · intro parseAddr pool managerFund request herr
    constructor
    · intro s g fr t amt hmem
      simp only [fund_handle] at hmem
      repeat' split at hmem
      all_goals simp_all
    · intro ep hok
      simp only [fund_handle] at hok
      repeat' split at hok
      all_goals simp_all

/-- Witness for C7: the amount 1/3 FIL is not exactly representable in
10^-18 units and the conversion rejects it. -/
theorem c7_witness :
    (10 ^ 18 : ℕ) % (mkRat 1 3).den ≠ 0 ∧
    f64_to_token_amount (mkRat 1 3) = Except.error "invalid amount" :=
  ⟨by decide, (c7_amount_conversion_exact (mkRat 1 3)).2.2.1 (by decide)⟩

end IpcAgent
